import Mathlib

/-!
Verification development for the session context engine of the ai-rpg
repository (package `context`: manager, events, ai_integration, types).

Shallow embedding conventions:
* Go `int` is modelled as `Int`; Go `time.Time` as a `Nat` tick (minutes
  granularity), with the zero value of `time.Time` modelled as `Option Nat`
  where the code tests `IsZero` (location-visit exit times, first-visit time).
* Go maps (`NPCStates`, `Attributes`) are modelled as association lists with
  lookup/replace-or-append operations mirroring map read/assignment.
* The string-keyed dynamic metadata bag of an action event is modelled as
  a record of the typed fields the consequence processor reads with a Go type
  assertion (`.(int)`, `.(string)`); a `none` field models "key absent or of
  the wrong dynamic type", matching `val, ok := m[k].(T)`.
* Per-session state passing replaces the cache pointer: each mutator takes the
  session's `PlayerContext` and returns the updated one (the cache-hit path of
  `GetContext` inside every mutator).  The background worker's dispatch by
  `event.SessionID` is modelled by a guard in the event fold.
* `float64` session-time bookkeeping and log output are omitted (no claim
  touches them).
-/

/-- Equipment item (types.go `EquipmentItem`; stat/metadata bags omitted). -/
structure EquipmentItem where
  id : String
  name : String
  type : String
  slot : String
deriving DecidableEq

/-- Inventory item (types.go `InventoryItem`; metadata bag omitted). -/
structure InventoryItem where
  id : String
  name : String
  type : String
  quantity : Int
  value : Int
deriving DecidableEq

/-- Health status (types.go `HealthStatus`). -/
structure HealthStatus where
  current : Int
  max : Int
deriving DecidableEq

/-- Character state (types.go `CharacterState`); the attribute map is an
association list, the free-form metadata bag is omitted. -/
structure CharacterState where
  name : String
  health : HealthStatus
  equipment : List EquipmentItem
  inventory : List InventoryItem
  reputation : Int
  attributes : List (String × Int)
deriving DecidableEq

/-- One visit in the location history (types.go `LocationVisit`); the Go zero
`ExitTime` (tested with `IsZero`) is `none`. -/
structure LocationVisit where
  location : String
  entryTime : Nat
  exitTime : Option Nat
  duration : Nat
deriving DecidableEq

/-- Location state (types.go `LocationState`); Go zero `FirstVisit` is
`none`. -/
structure LocationState where
  current : String
  previous : String
  visitCount : Int
  firstVisit : Option Nat
  timeInLocation : Int
  locationHistory : List LocationVisit
deriving DecidableEq

/-- Typed item payload carried under the "item" metadata key (events.go
`item_gained`: `id`/`name`/`type` are asserted unconditionally, while
`quantity`/`value` are read with an ok-check). -/
structure ItemMeta where
  id : String
  name : String
  type : String
  quantity : Option Int
  value : Option Int
deriving DecidableEq

/-- The metadata bag of an action event, restricted to the typed reads the
engine performs (events.go `processActionConsequences`).  A `none` field
models a missing key or a failed Go type assertion. -/
structure Metadata where
  reputationChange : Option Int
  damage : Option Int
  healing : Option Int
  npcID : Option String
  npcName : Option String
  reputationReward : Option Int
  item : Option ItemMeta
  itemID : Option String
deriving DecidableEq

/-- The all-absent metadata bag (a freshly made empty Go map). -/
def emptyMetadata : Metadata :=
  { reputationChange := none, damage := none, healing := none, npcID := none,
    npcName := none, reputationReward := none, item := none, itemID := none }

/-- Player action (types.go `ActionEvent`). -/
structure ActionEvent where
  id : String
  timestamp : Nat
  type : String
  command : String
  target : String
  location : String
  outcome : String
  consequences : List String
  metadata : Metadata
deriving DecidableEq

/-- NPC relationship record (types.go `NPCRelationship`). -/
structure NPCRelationship where
  npcID : String
  name : String
  disposition : Int
  firstMet : Nat
  lastInteraction : Nat
  interactionCount : Int
  knownFacts : List String
  mood : String
  location : String
  notes : List String
deriving DecidableEq

/-- Session statistics (types.go `SessionMetrics`; the float64 session-time
field is omitted). -/
structure SessionMetrics where
  totalActions : Int
  combatActions : Int
  socialActions : Int
  exploreActions : Int
  locationsVisited : Int
  npcsInteracted : Int
deriving DecidableEq

/-- Root session aggregate (types.go `PlayerContext`). -/
structure PlayerContext where
  playerID : String
  sessionID : String
  startTime : Nat
  lastUpdate : Nat
  character : CharacterState
  location : LocationState
  actions : List ActionEvent
  npcStates : List (String × NPCRelationship)
  sessionStats : SessionMetrics
deriving DecidableEq

/-- Queued pipeline event (types.go `ContextEvent`). -/
structure ContextEvent where
  sessionID : String
  event : ActionEvent
  timestamp : Nat
deriving DecidableEq

/-- The bounded event queue of the manager: a buffered Go channel of capacity
`capacity` (manager.go `eventQueue`, default 1000). -/
structure EventQueue where
  capacity : Nat
  buffer : List ContextEvent
deriving DecidableEq

/-- Result of `storage.LoadContext` (types.go `ContextStorage`): a session,
a NotFound error, or some other I/O error. -/
inductive LoadResult where
  | found (ctx : PlayerContext)
  | notFound
  | ioError (msg : String)
deriving DecidableEq

/-- Default `maxActions` configured by `NewContextManager`. -/
def defaultMaxActions : Nat := 50

/-- Default event-queue capacity configured by `NewContextManager`. -/
def defaultQueueCapacity : Nat := 1000

/-- The clamp written inline at each reputation/disposition mutation site
(manager.go `UpdateReputation`/`UpdateNPCRelationship`, events.go end of
`processActionConsequences`): `if v > 100 then 100 else if v < -100 then -100`. -/
def clamp100 (v : Int) : Int :=
  if v > 100 then 100 else if v < -100 then -100 else v

/-- manager.go `calculateMood`. -/
def calculateMood (disposition : Int) : String :=
  if disposition ≥ 50 then "friendly"
  else if disposition ≥ 25 then "helpful"
  else if disposition ≥ 0 then "neutral"
  else if disposition ≥ -25 then "suspicious"
  else if disposition ≥ -50 then "unfriendly"
  else "hostile"

/-- manager.go `contains`: linear scan of a string slice. -/
def contains : List String → String → Bool
  | [], _ => false
  | s :: rest, item => if s = item then true else contains rest item

/-- Go map read `ctx.NPCStates[npcID]` on the association list. -/
def lookupNPC : List (String × NPCRelationship) → String → Option NPCRelationship
  | [], _ => none
  | (k, v) :: rest, npcID => if k = npcID then some v else lookupNPC rest npcID

/-- Go map assignment `ctx.NPCStates[npcID] = rel`: replace the existing key
or append a new binding. -/
def insertNPC : List (String × NPCRelationship) → String → NPCRelationship →
    List (String × NPCRelationship)
  | [], npcID, rel => [(npcID, rel)]
  | (k, v) :: rest, npcID, rel =>
      if k = npcID then (npcID, rel) :: rest else (k, v) :: insertNPC rest npcID rel

/-- The fact-append loop of manager.go `UpdateNPCRelationship`: each fact is
appended only when `contains` does not already find it. -/
def addFacts (known : List String) (facts : List String) : List String :=
  facts.foldl (fun ks f => if contains ks f then ks else ks ++ [f]) known

/-- manager.go `createNewContext`: skeleton session synthesized on a
cache+store miss. -/
def createNewContext (sessionID : String) (now : Nat) : PlayerContext :=
  { playerID := ""
    sessionID := sessionID
    startTime := now
    lastUpdate := now
    character :=
      { name := ""
        health := { current := 20, max := 20 }
        equipment := []
        inventory := []
        reputation := 0
        attributes := [] }
    location :=
      { current := "unknown"
        previous := ""
        visitCount := 0
        firstVisit := none
        timeInLocation := 0
        locationHistory := [] }
    actions := []
    npcStates := []
    sessionStats :=
      { totalActions := 0, combatActions := 0, socialActions := 0,
        exploreActions := 0, locationsVisited := 0, npcsInteracted := 0 } }

/-- The session literal built by manager.go `CreateSession` (the generated
UUID is the `sessionID` parameter). -/
def createSessionCtx (playerID playerName sessionID : String) (now : Nat) :
    PlayerContext :=
  { playerID := playerID
    sessionID := sessionID
    startTime := now
    lastUpdate := now
    character :=
      { name := playerName
        health := { current := 20, max := 20 }
        equipment := []
        inventory := []
        reputation := 0
        attributes :=
          [("strength", 10), ("dexterity", 10), ("intelligence", 10),
           ("charisma", 10)] }
    location :=
      { current := "starting_village"
        previous := ""
        visitCount := 1
        firstVisit := some now
        timeInLocation := 0
        locationHistory := [] }
    actions := []
    npcStates := []
    sessionStats :=
      { totalActions := 0, combatActions := 0, socialActions := 0,
        exploreActions := 0, locationsVisited := 1, npcsInteracted := 0 } }

/-- manager.go `CreateSession`: build the session, cache it, then save it;
a failing save returns an empty id with an error.  The second component is
the cache entry for the new id after the call (the code stores it in the
cache before attempting the durable save and never removes it on failure). -/
def createSession (playerID playerName sessionID : String) (now : Nat)
    (saveOk : Bool) : Except String String × Option PlayerContext :=
  let ctx := createSessionCtx playerID playerName sessionID now
  let cache := some ctx
  if saveOk then (Except.ok sessionID, cache)
  else (Except.error "failed to save new context", cache)

/-- manager.go `IsSessionActive`: a session is active when its id is in the
cache. -/
def isSessionActive (cache : Option PlayerContext) : Bool :=
  cache.isSome

/-- manager.go `GetContext`: cached entry if present, else the stored
session, else (on any load error, in particular NotFound) a fresh skeleton;
the returned session is cached and the error result is always nil.  The
second component of the payload is the cache entry after the call. -/
def getContext (cache : Option PlayerContext) (load : LoadResult)
    (sessionID : String) (now : Nat) :
    Except String (PlayerContext × Option PlayerContext) :=
  match cache with
  | some cached => Except.ok (cached, some cached)
  | none =>
      match load with
      | LoadResult.found ctx => Except.ok (ctx, some ctx)
      | LoadResult.notFound =>
          Except.ok (createNewContext sessionID now, some (createNewContext sessionID now))
      | LoadResult.ioError _ =>
          Except.ok (createNewContext sessionID now, some (createNewContext sessionID now))

/-- The action literal built by manager.go `RecordAction` (fresh UUID and
timestamp passed as parameters, metadata initialized empty). -/
def mkRecordedAction (actionID command actionType target location outcome : String)
    (consequences : List String) (now : Nat) : ActionEvent :=
  { id := actionID
    timestamp := now
    type := actionType
    command := command
    target := target
    location := location
    outcome := outcome
    consequences := consequences
    metadata := emptyMetadata }

/-- manager.go `RecordAction`: non-blocking enqueue on the bounded queue
(`select` with a `default` arm on a buffered channel succeeds exactly when
the buffer has spare capacity); a full queue returns the capacity error and
drops the action. -/
def recordAction (q : EventQueue) (actionID sessionID command actionType target
    location outcome : String) (consequences : List String) (now : Nat) :
    Except String EventQueue :=
  let action := mkRecordedAction actionID command actionType target location
    outcome consequences now
  if q.buffer.length < q.capacity then
    Except.ok { q with buffer := q.buffer ++
      [{ sessionID := sessionID, event := action, timestamp := now }] }
  else
    Except.error "event queue full"

/-- The close-the-last-open-visit step at the top of manager.go
`UpdateLocation`: when the history is nonempty and its last entry has a zero
exit time, stamp that entry with the exit time and its duration. -/
def closeLastVisit (hist : List LocationVisit) (now : Nat) : List LocationVisit :=
  match hist.getLast? with
  | some lastVisit =>
      if lastVisit.exitTime = none then
        hist.dropLast ++
          [{ lastVisit with
             exitTime := some now
             duration := now - lastVisit.entryTime }]
      else hist
  | none => hist

/-- manager.go `UpdateLocation`: when the location actually changes, close
the previous open visit, swap current/previous, reset time-in-location,
append a new open visit, bump the visited counter and set the first-visit
time if still zero; always refresh the last-update stamp. -/
def updateLocation (ctx : PlayerContext) (newLocation : String) (now : Nat) :
    PlayerContext :=
  let ctx1 :=
    if ctx.location.current ≠ newLocation then
      { ctx with
        location :=
          { current := newLocation
            previous := ctx.location.current
            visitCount := ctx.location.visitCount
            firstVisit :=
              match ctx.location.firstVisit with
              | none => some now
              | some t => some t
            timeInLocation := 0
            locationHistory := closeLastVisit ctx.location.locationHistory now ++
              [{ location := newLocation, entryTime := now, exitTime := none,
                 duration := 0 }] }
        sessionStats :=
          { ctx.sessionStats with
            locationsVisited := ctx.sessionStats.locationsVisited + 1 } }
    else ctx
  { ctx1 with lastUpdate := now }

/-- manager.go `UpdateNPCRelationship`: fetch or create the relationship,
apply the disposition delta with the inline clamp, stamp interaction data,
append only genuinely new facts, recompute the mood, and write the record
back into the NPC map. -/
def updateNPCRelationship (ctx : PlayerContext) (npcID npcName : String)
    (dispositionChange : Int) (facts : List String) (now : Nat) : PlayerContext :=
  let found := lookupNPC ctx.npcStates npcID
  let npcRel : NPCRelationship :=
    match found with
    | some r => r
    | none =>
        { npcID := npcID, name := npcName, disposition := 0, firstMet := now,
          lastInteraction := 0, interactionCount := 0, knownFacts := [],
          mood := "neutral", location := ctx.location.current, notes := [] }
  let stats :=
    match found with
    | some _ => ctx.sessionStats
    | none =>
        { ctx.sessionStats with
          npcsInteracted := ctx.sessionStats.npcsInteracted + 1 }
  let npcRel1 :=
    { npcRel with
      disposition := clamp100 (npcRel.disposition + dispositionChange)
      lastInteraction := now
      interactionCount := npcRel.interactionCount + 1
      location := ctx.location.current }
  let npcRel2 := { npcRel1 with knownFacts := addFacts npcRel1.knownFacts facts }
  let npcRel3 := { npcRel2 with mood := calculateMood npcRel2.disposition }
  { ctx with
    npcStates := insertNPC ctx.npcStates npcID npcRel3
    sessionStats := stats
    lastUpdate := now }

/-- manager.go `UpdateCharacterHealth`: apply the delta, then clamp above to
max and below to zero. -/
def updateCharacterHealth (ctx : PlayerContext) (healthChange : Int) (now : Nat) :
    PlayerContext :=
  let cur0 := ctx.character.health.current + healthChange
  let cur1 :=
    if cur0 > ctx.character.health.max then ctx.character.health.max
    else if cur0 < 0 then 0
    else cur0
  { ctx with
    character :=
      { ctx.character with
        health := { ctx.character.health with current := cur1 } }
    lastUpdate := now }

/-- manager.go `UpdateReputation`: apply the delta with the inline clamp. -/
def updateReputation (ctx : PlayerContext) (reputationChange : Int) (now : Nat) :
    PlayerContext :=
  { ctx with
    character :=
      { ctx.character with
        reputation := clamp100 (ctx.character.reputation + reputationChange) }
    lastUpdate := now }

/-- manager.go `GetRecentActions`: the last `count` actions of the log. -/
def getRecentActions (ctx : PlayerContext) (count : Nat) : List ActionEvent :=
  if ctx.actions.length > count then
    ctx.actions.drop (ctx.actions.length - count)
  else ctx.actions

/-- events.go `removeItemFromInventory`: drop the first inventory entry with
the given id. -/
def removeItemFromInventory : List InventoryItem → String → List InventoryItem
  | [], _ => []
  | it :: rest, itemID =>
      if it.id = itemID then rest else it :: removeItemFromInventory rest itemID

/-- The unclamped reputation delta performed by the `reputation_increase`,
`reputation_decrease`, `combat_victory`, `combat_defeat` and
`quest_completed` arms of the consequence switch (the clamp is applied once
at the end of `processActionConsequences`). -/
def addReputation (ctx : PlayerContext) (change : Int) : PlayerContext :=
  { ctx with
    character :=
      { ctx.character with reputation := ctx.character.reputation + change } }

/-- The `health_damage` arm: subtract the damage and clamp below at 0 (no
upper clamp in this arm). -/
def applyHealthDamage (ctx : PlayerContext) (damage : Int) : PlayerContext :=
  let cur0 := ctx.character.health.current - damage
  let cur1 := if cur0 < 0 then 0 else cur0
  { ctx with
    character :=
      { ctx.character with
        health := { ctx.character.health with current := cur1 } } }

/-- The `health_heal` arm: add the healing and clamp above at max (no lower
clamp in this arm). -/
def applyHealthHeal (ctx : PlayerContext) (healing : Int) : PlayerContext :=
  let cur0 := ctx.character.health.current + healing
  let cur1 :=
    if cur0 > ctx.character.health.max then ctx.character.health.max
    else cur0
  { ctx with
    character :=
      { ctx.character with
        health := { ctx.character.health with current := cur1 } } }

/-- The `item_gained` arm: append the inventory item built from the typed
item payload (quantity defaulting to 1, value to 0). -/
def gainItem (ctx : PlayerContext) (itemData : ItemMeta) : PlayerContext :=
  let quantity :=
    match itemData.quantity with
    | some q => q
    | none => 1
  let value :=
    match itemData.value with
    | some v => v
    | none => 0
  { ctx with
    character :=
      { ctx.character with
        inventory := ctx.character.inventory ++
          [{ id := itemData.id, name := itemData.name, type := itemData.type,
             quantity := quantity, value := value }] } }

/-- The `item_lost` arm: remove the first inventory entry with the id. -/
def loseItem (ctx : PlayerContext) (itemID : String) : PlayerContext :=
  { ctx with
    character :=
      { ctx.character with
        inventory := removeItemFromInventory ctx.character.inventory itemID } }

/-- One arm of the consequence switch in events.go
`processActionConsequences`, applied to the session state. -/
def applyConsequence (now : Nat) (action : ActionEvent) (ctx : PlayerContext)
    (consequence : String) : PlayerContext :=
  if consequence = "reputation_increase" then
    addReputation ctx
      (match action.metadata.reputationChange with
       | some v => v
       | none => 5)
  else if consequence = "reputation_decrease" then
    addReputation ctx
      (match action.metadata.reputationChange with
       | some v => v
       | none => -10)
  else if consequence = "health_damage" then
    match action.metadata.damage with
    | some damage => applyHealthDamage ctx damage
    | none => ctx
  else if consequence = "health_heal" then
    match action.metadata.healing with
    | some healing => applyHealthHeal ctx healing
    | none => ctx
  else if consequence = "npc_noticed" then
    match action.metadata.npcID with
    | some npcID =>
        match action.metadata.npcName with
        | some npcName =>
            updateNPCRelationship ctx npcID npcName 0
              ["noticed_player_" ++ action.type] now
        | none => ctx
    | none => ctx
  else if consequence = "combat_victory" then
    addReputation ctx 2
  else if consequence = "combat_defeat" then
    addReputation ctx (-1)
  else if consequence = "quest_completed" then
    match action.metadata.reputationReward with
    | some reward => addReputation ctx reward
    | none => ctx
  else if consequence = "item_gained" then
    match action.metadata.item with
    | some itemData => gainItem ctx itemData
    | none => ctx
  else if consequence = "item_lost" then
    match action.metadata.itemID with
    | some itemID => loseItem ctx itemID
    | none => ctx
  else ctx

/-- events.go `processActionConsequences`: fold the consequence switch over
the action's tags, then clamp the reputation with the trailing inline clamp. -/
def processActionConsequences (now : Nat) (ctx : PlayerContext)
    (action : ActionEvent) : PlayerContext :=
  let ctx1 := action.consequences.foldl (applyConsequence now action) ctx
  { ctx1 with
    character :=
      { ctx1.character with
        reputation := clamp100 ctx1.character.reputation } }

/-- events.go `updateSessionStats`: bump the total counter and the per-type
counter selected by the action's type tag (float session time omitted). -/
def updateSessionStats (ctx : PlayerContext) (action : ActionEvent) :
    PlayerContext :=
  let s0 :=
    { ctx.sessionStats with totalActions := ctx.sessionStats.totalActions + 1 }
  let s1 :=
    if action.type = "combat" ∨ action.type = "attack" ∨ action.type = "defend" then
      { s0 with combatActions := s0.combatActions + 1 }
    else if action.type = "talk" ∨ action.type = "dialogue" ∨ action.type = "social" then
      { s0 with socialActions := s0.socialActions + 1 }
    else if action.type = "move" ∨ action.type = "explore" ∨
        action.type = "examine" ∨ action.type = "look" then
      { s0 with exploreActions := s0.exploreActions + 1 }
    else s0
  { ctx with sessionStats := s1 }

/-- The log-trimming step of events.go `processContextEvent`: when the log
exceeds `maxActions`, keep only its last `maxActions` entries. -/
def trimActions (ctx : PlayerContext) (maxActions : Nat) : PlayerContext :=
  if ctx.actions.length > maxActions then
    { ctx with actions := ctx.actions.drop (ctx.actions.length - maxActions) }
  else ctx

/-- events.go `processContextEvent` applied to the event's session: append
the action to the log, trim the log to the last `maxActions` entries, apply
the consequences, update the statistics and stamp the update time. -/
def processContextEvent (maxActions : Nat) (now : Nat) (ctx : PlayerContext)
    (event : ContextEvent) : PlayerContext :=
  let ctx1 := { ctx with actions := ctx.actions ++ [event.event] }
  let ctx2 := trimActions ctx1 maxActions
  let ctx3 := processActionConsequences now ctx2 event.event
  let ctx4 := updateSessionStats ctx3 event.event
  { ctx4 with lastUpdate := now }

/-- The single worker loop of events.go `processEvents`, viewed from one
session: each drained event is applied to the session it addresses, so an
event for a different session leaves this session unchanged. -/
def processEvents (maxActions : Nat) (now : Nat) (ctx : PlayerContext)
    (events : List ContextEvent) : PlayerContext :=
  events.foldl
    (fun c ev =>
      if ev.sessionID = c.sessionID then processContextEvent maxActions now c ev
      else c) ctx

/-- ai_integration.go `getActionSummary`: at most the last `count` actions,
rendered one line each; an empty log yields the single placeholder line. -/
def getActionSummary (actions : List ActionEvent) (count : Nat) : List String :=
  if actions.length = 0 then ["No recent actions"]
  else
    (actions.drop (actions.length - count)).map
      (fun a => a.type ++ ": " ++ a.command ++ " -> " ++ a.outcome)

/-- The fields of the summary built by ai_integration.go `GetContextSummary`
that the claims examine (NPC filtering and float duration omitted). -/
structure ContextSummary where
  currentLocation : String
  previousLocation : String
  playerHealth : String
  playerReputation : Int
  recentActions : List String
deriving DecidableEq

/-- ai_integration.go `GetContextSummary`: condensed projection of the
session; the recent-actions list is `getActionSummary` with count 5. -/
def getContextSummary (ctx : PlayerContext) : ContextSummary :=
  { currentLocation := ctx.location.current
    previousLocation := ctx.location.previous
    playerHealth := toString ctx.character.health.current ++ "/" ++
      toString ctx.character.health.max
    playerReputation := ctx.character.reputation
    recentActions := getActionSummary ctx.actions 5 }

/-- ai_integration.go `formatTimeSince` on the minute-granularity clock. -/
def formatTimeSince (now t : Nat) : String :=
  let minutes := now - t
  if minutes < 1 then "moments"
  else if minutes < 60 then toString minutes ++ " min"
  else if minutes < 1440 then toString (minutes / 60) ++ " hr"
  else toString (minutes / 1440) ++ " days"

/-- ai_integration.go `formatRecentActions`: the list of rendered lines of
the prompt's recent-actions section (the final newline join is omitted);
an empty list yields the single placeholder line. -/
def formatRecentActions (now : Nat) (actions : List ActionEvent) : List String :=
  if actions.length = 0 then ["- No recent actions"]
  else
    actions.map (fun a =>
      "- " ++ formatTimeSince now a.timestamp ++ " ago: " ++ a.command ++
      " (" ++ a.type ++ ") -> " ++ a.outcome)

/-- The recent-actions section of the prompt built by ai_integration.go
`GenerateAIPrompt`, which formats `GetRecentActions(sessionID, 3)`. -/
def promptRecentActionLines (ctx : PlayerContext) (now : Nat) : List String :=
  formatRecentActions now (getRecentActions ctx 3)

/-- One engine operation on a session, covering the direct mutators of
manager.go and the worker's processing of one queued event. -/
inductive EngineOp where
  | updateRep (change : Int) (now : Nat)
  | updateHealth (change : Int) (now : Nat)
  | updateLoc (newLocation : String) (now : Nat)
  | updateNPC (npcID npcName : String) (dispositionChange : Int)
      (facts : List String) (now : Nat)
  | procEvent (ev : ContextEvent) (now : Nat)
deriving DecidableEq

/-- Apply one engine operation to a session's state (direct mutators act on
the cached state; a pipeline event is routed by its session id, with the
default `maxActions` bound of 50). -/
def applyOp (ctx : PlayerContext) : EngineOp → PlayerContext
  | EngineOp.updateRep change now => updateReputation ctx change now
  | EngineOp.updateHealth change now => updateCharacterHealth ctx change now
  | EngineOp.updateLoc newLocation now => updateLocation ctx newLocation now
  | EngineOp.updateNPC npcID npcName dispositionChange facts now =>
      updateNPCRelationship ctx npcID npcName dispositionChange facts now
  | EngineOp.procEvent ev now =>
      if ev.sessionID = ctx.sessionID then
        processContextEvent defaultMaxActions now ctx ev
      else ctx

/-- A sequence of engine operations applied in order. -/
def applyOps (ctx : PlayerContext) (ops : List EngineOp) : PlayerContext :=
  ops.foldl applyOp ctx

/-- Session states reachable from a creation event (explicit `CreateSession`
or the implicit skeleton of `GetContext`) by engine operations. -/
def Reachable (ctx : PlayerContext) : Prop :=
  (∃ playerID playerName sessionID now ops,
      ctx = applyOps (createSessionCtx playerID playerName sessionID now) ops) ∨
  (∃ sessionID now ops, ctx = applyOps (createNewContext sessionID now) ops)

/-! ## Helper lemmas about the embedded primitives -/

theorem clamp100_bounds (v : Int) : -100 ≤ clamp100 v ∧ clamp100 v ≤ 100 := by
  unfold clamp100
  split_ifs <;> omega

theorem contains_eq_true_iff (l : List String) (s : String) :
    contains l s = true ↔ s ∈ l := by
  induction l with
  | nil => simp [contains]
  | cons x xs ih =>
      by_cases hx : x = s
      · simp [contains, hx]
      · simp [contains, hx, ih, Ne.symm hx]

theorem addFacts_of_subset (known : List String) (facts : List String)
    (h : ∀ f ∈ facts, f ∈ known) : addFacts known facts = known := by
  induction facts with
  | nil => rfl
  | cons f fs ih =>
      have hf : contains known f = true :=
        (contains_eq_true_iff known f).mpr (h f (List.mem_cons_self f fs))
      unfold addFacts
      rw [List.foldl_cons, if_pos hf]
      exact ih (fun g hg => h g (List.mem_cons_of_mem f hg))

theorem addFacts_nodup (facts : List String) :
    ∀ known : List String, known.Nodup → (addFacts known facts).Nodup := by
  induction facts with
  | nil => intro known h; exact h
  | cons f fs ih =>
      intro known h
      unfold addFacts
      rw [List.foldl_cons]
      by_cases hf : contains known f = true
      · rw [if_pos hf]; exact ih known h
      · rw [if_neg hf]
        refine ih (known ++ [f]) ?_
        have hnot : f ∉ known := fun hmem =>
          hf ((contains_eq_true_iff known f).mpr hmem)
        simp [List.nodup_append, h, hnot]

theorem mem_insertNPC (npcs : List (String × NPCRelationship)) (k : String)
    (v : NPCRelationship) (p : String × NPCRelationship)
    (h : p ∈ insertNPC npcs k v) : p = (k, v) ∨ p ∈ npcs := by
  induction npcs with
  | nil =>
      simp [insertNPC] at h
      exact Or.inl h
  | cons q rest ih =>
      obtain ⟨qk, qv⟩ := q
      unfold insertNPC at h
      by_cases hk : qk = k
      · rw [if_pos hk] at h
        rcases List.mem_cons.mp h with h1 | h1
        · exact Or.inl h1
        · exact Or.inr (List.mem_cons_of_mem _ h1)
      · rw [if_neg hk] at h
        rcases List.mem_cons.mp h with h1 | h1
        · exact Or.inr (h1 ▸ List.mem_cons_self _ _)
        · rcases ih h1 with h2 | h2
          · exact Or.inl h2
          · exact Or.inr (List.mem_cons_of_mem _ h2)

theorem lookupNPC_insertNPC (npcs : List (String × NPCRelationship))
    (k : String) (v : NPCRelationship) :
    lookupNPC (insertNPC npcs k v) k = some v := by
  induction npcs with
  | nil => simp [insertNPC, lookupNPC]
  | cons q rest ih =>
      obtain ⟨qk, qv⟩ := q
      unfold insertNPC
      by_cases hk : qk = k
      · rw [if_pos hk]; simp [lookupNPC]
      · rw [if_neg hk]; simp [lookupNPC, hk, ih]

/-- The last `n` elements of a list. -/
def lastN (n : Nat) (l : List α) : List α := l.drop (l.length - n)

theorem length_lastN (n : Nat) (l : List α) :
    (lastN n l).length = min l.length n := by
  unfold lastN
  rw [List.length_drop]
  omega

theorem mem_lastN {a : α} {n : Nat} {l : List α} (h : a ∈ lastN n l) : a ∈ l :=
  List.mem_of_mem_drop h

/-- The log-trimming step always leaves exactly the last `n` elements. -/
theorem trim_eq_lastN (n : Nat) (l : List α) :
    (if l.length > n then l.drop (l.length - n) else l) = lastN n l := by
  unfold lastN
  split
  · rfl
  · rw [Nat.sub_eq_zero_of_le (by omega), List.drop_zero]

theorem lastN_append_lastN (n : Nat) (xs ys : List α) :
    lastN n (lastN n xs ++ ys) = lastN n (xs ++ ys) := by
  unfold lastN
  rw [show xs.drop (xs.length - n) ++ ys = (xs ++ ys).drop (xs.length - n) from
    (List.drop_append_of_le_length (Nat.sub_le _ _)).symm]
  rw [List.drop_drop]
  congr 1
  simp only [List.length_drop, List.length_append]
  omega

/-! ## Field-preservation lemmas for the engine operations -/

theorem updateReputation_actions (ctx : PlayerContext) (c : Int) (now : Nat) :
    (updateReputation ctx c now).actions = ctx.actions := rfl

theorem updateReputation_npcStates (ctx : PlayerContext) (c : Int) (now : Nat) :
    (updateReputation ctx c now).npcStates = ctx.npcStates := rfl

theorem updateReputation_location (ctx : PlayerContext) (c : Int) (now : Nat) :
    (updateReputation ctx c now).location = ctx.location := rfl

theorem updateReputation_sessionID (ctx : PlayerContext) (c : Int) (now : Nat) :
    (updateReputation ctx c now).sessionID = ctx.sessionID := rfl

theorem updateReputation_health (ctx : PlayerContext) (c : Int) (now : Nat) :
    (updateReputation ctx c now).character.health = ctx.character.health := rfl

theorem updateReputation_reputation (ctx : PlayerContext) (c : Int) (now : Nat) :
    (updateReputation ctx c now).character.reputation
      = clamp100 (ctx.character.reputation + c) := rfl

theorem updateCharacterHealth_actions (ctx : PlayerContext) (c : Int) (now : Nat) :
    (updateCharacterHealth ctx c now).actions = ctx.actions := rfl

theorem updateCharacterHealth_npcStates (ctx : PlayerContext) (c : Int) (now : Nat) :
    (updateCharacterHealth ctx c now).npcStates = ctx.npcStates := rfl

theorem updateCharacterHealth_location (ctx : PlayerContext) (c : Int) (now : Nat) :
    (updateCharacterHealth ctx c now).location = ctx.location := rfl

theorem updateCharacterHealth_sessionID (ctx : PlayerContext) (c : Int) (now : Nat) :
    (updateCharacterHealth ctx c now).sessionID = ctx.sessionID := rfl

theorem updateCharacterHealth_reputation (ctx : PlayerContext) (c : Int) (now : Nat) :
    (updateCharacterHealth ctx c now).character.reputation
      = ctx.character.reputation := rfl

theorem updateCharacterHealth_max (ctx : PlayerContext) (c : Int) (now : Nat) :
    (updateCharacterHealth ctx c now).character.health.max
      = ctx.character.health.max := rfl

theorem updateLocation_actions (ctx : PlayerContext) (loc : String) (now : Nat) :
    (updateLocation ctx loc now).actions = ctx.actions := by
  unfold updateLocation
  split <;> rfl

theorem updateLocation_npcStates (ctx : PlayerContext) (loc : String) (now : Nat) :
    (updateLocation ctx loc now).npcStates = ctx.npcStates := by
  unfold updateLocation
  split <;> rfl

theorem updateLocation_character (ctx : PlayerContext) (loc : String) (now : Nat) :
    (updateLocation ctx loc now).character = ctx.character := by
  unfold updateLocation
  split <;> rfl

theorem updateLocation_sessionID (ctx : PlayerContext) (loc : String) (now : Nat) :
    (updateLocation ctx loc now).sessionID = ctx.sessionID := by
  unfold updateLocation
  split <;> rfl

theorem updateNPCRelationship_actions (ctx : PlayerContext) (npcID npcName : String)
    (dc : Int) (facts : List String) (now : Nat) :
    (updateNPCRelationship ctx npcID npcName dc facts now).actions = ctx.actions := rfl

theorem updateNPCRelationship_character (ctx : PlayerContext) (npcID npcName : String)
    (dc : Int) (facts : List String) (now : Nat) :
    (updateNPCRelationship ctx npcID npcName dc facts now).character
      = ctx.character := rfl

theorem updateNPCRelationship_location (ctx : PlayerContext) (npcID npcName : String)
    (dc : Int) (facts : List String) (now : Nat) :
    (updateNPCRelationship ctx npcID npcName dc facts now).location
      = ctx.location := rfl

theorem updateNPCRelationship_sessionID (ctx : PlayerContext) (npcID npcName : String)
    (dc : Int) (facts : List String) (now : Nat) :
    (updateNPCRelationship ctx npcID npcName dc facts now).sessionID
      = ctx.sessionID := rfl

theorem updateSessionStats_actions (ctx : PlayerContext) (a : ActionEvent) :
    (updateSessionStats ctx a).actions = ctx.actions := rfl

theorem updateSessionStats_character (ctx : PlayerContext) (a : ActionEvent) :
    (updateSessionStats ctx a).character = ctx.character := rfl

theorem updateSessionStats_npcStates (ctx : PlayerContext) (a : ActionEvent) :
    (updateSessionStats ctx a).npcStates = ctx.npcStates := rfl

theorem updateSessionStats_location (ctx : PlayerContext) (a : ActionEvent) :
    (updateSessionStats ctx a).location = ctx.location := rfl

theorem updateSessionStats_sessionID (ctx : PlayerContext) (a : ActionEvent) :
    (updateSessionStats ctx a).sessionID = ctx.sessionID := rfl

theorem addReputation_actions (ctx : PlayerContext) (c : Int) :
    (addReputation ctx c).actions = ctx.actions := rfl

theorem addReputation_npcStates (ctx : PlayerContext) (c : Int) :
    (addReputation ctx c).npcStates = ctx.npcStates := rfl

theorem addReputation_location (ctx : PlayerContext) (c : Int) :
    (addReputation ctx c).location = ctx.location := rfl

theorem addReputation_sessionID (ctx : PlayerContext) (c : Int) :
    (addReputation ctx c).sessionID = ctx.sessionID := rfl

theorem addReputation_health (ctx : PlayerContext) (c : Int) :
    (addReputation ctx c).character.health = ctx.character.health := rfl

theorem applyHealthDamage_frame (ctx : PlayerContext) (d : Int) :
    (applyHealthDamage ctx d).actions = ctx.actions ∧
    (applyHealthDamage ctx d).npcStates = ctx.npcStates ∧
    (applyHealthDamage ctx d).location = ctx.location ∧
    (applyHealthDamage ctx d).sessionID = ctx.sessionID ∧
    (applyHealthDamage ctx d).character.reputation = ctx.character.reputation ∧
    (applyHealthDamage ctx d).character.health.max = ctx.character.health.max :=
  ⟨rfl, rfl, rfl, rfl, rfl, rfl⟩

theorem applyHealthHeal_frame (ctx : PlayerContext) (h : Int) :
    (applyHealthHeal ctx h).actions = ctx.actions ∧
    (applyHealthHeal ctx h).npcStates = ctx.npcStates ∧
    (applyHealthHeal ctx h).location = ctx.location ∧
    (applyHealthHeal ctx h).sessionID = ctx.sessionID ∧
    (applyHealthHeal ctx h).character.reputation = ctx.character.reputation ∧
    (applyHealthHeal ctx h).character.health.max = ctx.character.health.max :=
  ⟨rfl, rfl, rfl, rfl, rfl, rfl⟩

theorem gainItem_frame (ctx : PlayerContext) (it : ItemMeta) :
    (gainItem ctx it).actions = ctx.actions ∧
    (gainItem ctx it).npcStates = ctx.npcStates ∧
    (gainItem ctx it).location = ctx.location ∧
    (gainItem ctx it).sessionID = ctx.sessionID ∧
    (gainItem ctx it).character.reputation = ctx.character.reputation ∧
    (gainItem ctx it).character.health = ctx.character.health :=
  ⟨rfl, rfl, rfl, rfl, rfl, rfl⟩

theorem loseItem_frame (ctx : PlayerContext) (itemID : String) :
    (loseItem ctx itemID).actions = ctx.actions ∧
    (loseItem ctx itemID).npcStates = ctx.npcStates ∧
    (loseItem ctx itemID).location = ctx.location ∧
    (loseItem ctx itemID).sessionID = ctx.sessionID ∧
    (loseItem ctx itemID).character.reputation = ctx.character.reputation ∧
    (loseItem ctx itemID).character.health = ctx.character.health :=
  ⟨rfl, rfl, rfl, rfl, rfl, rfl⟩

theorem applyConsequence_actions (now : Nat) (a : ActionEvent)
    (ctx : PlayerContext) (c : String) :
    (applyConsequence now a ctx c).actions = ctx.actions := by
  unfold applyConsequence
  repeat' split
  all_goals rfl

theorem applyConsequence_location (now : Nat) (a : ActionEvent)
    (ctx : PlayerContext) (c : String) :
    (applyConsequence now a ctx c).location = ctx.location := by
  unfold applyConsequence
  repeat' split
  all_goals rfl

theorem applyConsequence_sessionID (now : Nat) (a : ActionEvent)
    (ctx : PlayerContext) (c : String) :
    (applyConsequence now a ctx c).sessionID = ctx.sessionID := by
  unfold applyConsequence
  repeat' split
  all_goals rfl

theorem foldlConseq_actions (now : Nat) (a : ActionEvent) :
    ∀ (cs : List String) (ctx : PlayerContext),
      (cs.foldl (applyConsequence now a) ctx).actions = ctx.actions
  | [], _ => rfl
  | c :: cs, ctx => by
      rw [List.foldl_cons, foldlConseq_actions now a cs,
        applyConsequence_actions]

theorem foldlConseq_location (now : Nat) (a : ActionEvent) :
    ∀ (cs : List String) (ctx : PlayerContext),
      (cs.foldl (applyConsequence now a) ctx).location = ctx.location
  | [], _ => rfl
  | c :: cs, ctx => by
      rw [List.foldl_cons, foldlConseq_location now a cs,
        applyConsequence_location]

theorem foldlConseq_sessionID (now : Nat) (a : ActionEvent) :
    ∀ (cs : List String) (ctx : PlayerContext),
      (cs.foldl (applyConsequence now a) ctx).sessionID = ctx.sessionID
  | [], _ => rfl
  | c :: cs, ctx => by
      rw [List.foldl_cons, foldlConseq_sessionID now a cs,
        applyConsequence_sessionID]

theorem processActionConsequences_actions (now : Nat) (ctx : PlayerContext)
    (a : ActionEvent) :
    (processActionConsequences now ctx a).actions = ctx.actions :=
  foldlConseq_actions now a a.consequences ctx

theorem processActionConsequences_location (now : Nat) (ctx : PlayerContext)
    (a : ActionEvent) :
    (processActionConsequences now ctx a).location = ctx.location :=
  foldlConseq_location now a a.consequences ctx

theorem processActionConsequences_sessionID (now : Nat) (ctx : PlayerContext)
    (a : ActionEvent) :
    (processActionConsequences now ctx a).sessionID = ctx.sessionID :=
  foldlConseq_sessionID now a a.consequences ctx

theorem processActionConsequences_reputation (now : Nat) (ctx : PlayerContext)
    (a : ActionEvent) :
    (processActionConsequences now ctx a).character.reputation
      = clamp100 (a.consequences.foldl (applyConsequence now a)
          ctx).character.reputation := rfl

theorem trimActions_actions (ctx : PlayerContext) (m : Nat) :
    (trimActions ctx m).actions = lastN m ctx.actions := by
  unfold trimActions
  rw [← trim_eq_lastN]
  split <;> simp_all

theorem trimActions_character (ctx : PlayerContext) (m : Nat) :
    (trimActions ctx m).character = ctx.character := by
  unfold trimActions
  split <;> rfl

theorem trimActions_npcStates (ctx : PlayerContext) (m : Nat) :
    (trimActions ctx m).npcStates = ctx.npcStates := by
  unfold trimActions
  split <;> rfl

theorem trimActions_location (ctx : PlayerContext) (m : Nat) :
    (trimActions ctx m).location = ctx.location := by
  unfold trimActions
  split <;> rfl

theorem trimActions_sessionID (ctx : PlayerContext) (m : Nat) :
    (trimActions ctx m).sessionID = ctx.sessionID := by
  unfold trimActions
  split <;> rfl

theorem processContextEvent_actions (m now : Nat) (ctx : PlayerContext)
    (ev : ContextEvent) :
    (processContextEvent m now ctx ev).actions
      = lastN m (ctx.actions ++ [ev.event]) := by
  show (updateSessionStats (processActionConsequences now
      (trimActions { ctx with actions := ctx.actions ++ [ev.event] } m)
      ev.event) ev.event).actions = _
  rw [updateSessionStats_actions, processActionConsequences_actions,
    trimActions_actions]

theorem processContextEvent_sessionID (m now : Nat) (ctx : PlayerContext)
    (ev : ContextEvent) :
    (processContextEvent m now ctx ev).sessionID = ctx.sessionID := by
  show (updateSessionStats (processActionConsequences now _ ev.event)
      ev.event).sessionID = ctx.sessionID
  rw [updateSessionStats_sessionID, processActionConsequences_sessionID,
    trimActions_sessionID]

theorem processContextEvent_location (m now : Nat) (ctx : PlayerContext)
    (ev : ContextEvent) :
    (processContextEvent m now ctx ev).location = ctx.location := by
  show (updateSessionStats (processActionConsequences now _ ev.event)
      ev.event).location = ctx.location
  rw [updateSessionStats_location, processActionConsequences_location,
    trimActions_location]

/-! ## Invariants over session state -/

/-- All NPC dispositions lie in the documented range. -/
def dispInv (ctx : PlayerContext) : Prop :=
  ∀ p ∈ ctx.npcStates,
    -100 ≤ (Prod.snd p).disposition ∧ (Prod.snd p).disposition ≤ 100

/-- Character reputation and all NPC dispositions lie in [-100, 100]. -/
def repDispInv (ctx : PlayerContext) : Prop :=
  (-100 ≤ ctx.character.reputation ∧ ctx.character.reputation ≤ 100) ∧
  dispInv ctx

/-- Character health satisfies 0 ≤ current ≤ max. -/
def healthInv (ctx : PlayerContext) : Prop :=
  0 ≤ ctx.character.health.current ∧
  ctx.character.health.current ≤ ctx.character.health.max

/-- Every NPC's known-facts list is duplicate-free. -/
def factsInv (ctx : PlayerContext) : Prop :=
  ∀ p ∈ ctx.npcStates, (Prod.snd p).knownFacts.Nodup

theorem dispInv_congr {ctx2 ctx : PlayerContext}
    (h : ctx2.npcStates = ctx.npcStates) (hinv : dispInv ctx) : dispInv ctx2 :=
  fun p hp => hinv p (h ▸ hp)

theorem healthInv_congr {ctx2 ctx : PlayerContext}
    (h : ctx2.character.health = ctx.character.health) (hinv : healthInv ctx) :
    healthInv ctx2 := by
  unfold healthInv at *
  rw [h]
  exact hinv

theorem factsInv_congr {ctx2 ctx : PlayerContext}
    (h : ctx2.npcStates = ctx.npcStates) (hinv : factsInv ctx) : factsInv ctx2 :=
  fun p hp => hinv p (h ▸ hp)

theorem updateNPCRelationship_health (ctx : PlayerContext) (npcID npcName : String)
    (dc : Int) (facts : List String) (now : Nat) :
    (updateNPCRelationship ctx npcID npcName dc facts now).character.health
      = ctx.character.health := rfl

theorem dispInv_updateNPCRelationship (ctx : PlayerContext) (npcID npcName : String)
    (dc : Int) (facts : List String) (now : Nat) (hinv : dispInv ctx) :
    dispInv (updateNPCRelationship ctx npcID npcName dc facts now) := by
  intro p hp
  unfold updateNPCRelationship at hp
  rcases mem_insertNPC _ _ _ _ hp with h | h
  · subst h
    exact clamp100_bounds _
  · exact hinv p h

theorem lookupNPC_mem {npcs : List (String × NPCRelationship)} {k : String}
    {r : NPCRelationship} (h : lookupNPC npcs k = some r) : (k, r) ∈ npcs := by
  induction npcs with
  | nil => simp [lookupNPC] at h
  | cons q rest ih =>
      obtain ⟨qk, qv⟩ := q
      unfold lookupNPC at h
      by_cases hk : qk = k
      · rw [if_pos hk] at h
        subst hk
        cases h
        exact List.mem_cons_self _ _
      · rw [if_neg hk] at h
        exact List.mem_cons_of_mem _ (ih h)

theorem factsInv_updateNPCRelationship (ctx : PlayerContext) (npcID npcName : String)
    (dc : Int) (facts : List String) (now : Nat) (hinv : factsInv ctx) :
    factsInv (updateNPCRelationship ctx npcID npcName dc facts now) := by
  intro p hp
  unfold updateNPCRelationship at hp
  rcases mem_insertNPC _ _ _ _ hp with h | h
  · subst h
    show (addFacts _ facts).Nodup
    apply addFacts_nodup
    cases hfound : lookupNPC ctx.npcStates npcID with
    | some r => exact hinv _ (lookupNPC_mem hfound)
    | none => exact List.nodup_nil
  · exact hinv p h

/-- The adversarial-metadata guard needed by the health invariant: the
damage/healing values carried in the metadata bag, when present, are
nonnegative. -/
def metaHealthSafe (m : Metadata) : Bool :=
  (match m.damage with
   | some d => decide (0 ≤ d)
   | none => true) &&
  (match m.healing with
   | some h => decide (0 ≤ h)
   | none => true)

theorem metaHealthSafe_damage {m : Metadata} (hsafe : metaHealthSafe m = true) :
    ∀ d, m.damage = some d → 0 ≤ d := by
  intro d hd
  unfold metaHealthSafe at hsafe
  rw [hd, Bool.and_eq_true] at hsafe
  exact of_decide_eq_true hsafe.1

theorem metaHealthSafe_healing {m : Metadata} (hsafe : metaHealthSafe m = true) :
    ∀ h, m.healing = some h → 0 ≤ h := by
  intro h hh
  unfold metaHealthSafe at hsafe
  rw [hh, Bool.and_eq_true] at hsafe
  exact of_decide_eq_true hsafe.2

theorem healthInv_applyHealthDamage (ctx : PlayerContext) (d : Int)
    (hd : 0 ≤ d) (hinv : healthInv ctx) : healthInv (applyHealthDamage ctx d) := by
  obtain ⟨h1, h2⟩ := hinv
  constructor
  · show (0 : Int) ≤ (if ctx.character.health.current - d < 0 then 0
      else ctx.character.health.current - d)
    split <;> omega
  · show (if ctx.character.health.current - d < 0 then 0
      else ctx.character.health.current - d) ≤ ctx.character.health.max
    split <;> omega

theorem healthInv_applyHealthHeal (ctx : PlayerContext) (h : Int)
    (hh : 0 ≤ h) (hinv : healthInv ctx) : healthInv (applyHealthHeal ctx h) := by
  obtain ⟨h1, h2⟩ := hinv
  constructor
  · show (0 : Int) ≤ (if ctx.character.health.current + h > ctx.character.health.max
      then ctx.character.health.max else ctx.character.health.current + h)
    split <;> omega
  · show (if ctx.character.health.current + h > ctx.character.health.max
      then ctx.character.health.max else ctx.character.health.current + h)
      ≤ ctx.character.health.max
    split <;> omega

theorem healthInv_applyConsequence (now : Nat) (a : ActionEvent)
    (ctx : PlayerContext) (c : String)
    (hsafe : metaHealthSafe a.metadata = true) (hinv : healthInv ctx) :
    healthInv (applyConsequence now a ctx c) := by
  unfold applyConsequence
  repeat' split
  all_goals
    first
    | exact hinv
    | exact healthInv_congr (addReputation_health _ _) hinv
    | exact healthInv_congr (updateNPCRelationship_health _ _ _ _ _ _) hinv
    | exact healthInv_congr (gainItem_frame _ _).2.2.2.2.2 hinv
    | exact healthInv_congr (loseItem_frame _ _).2.2.2.2.2 hinv
    | (rename_i d hd
       exact healthInv_applyHealthDamage ctx d (metaHealthSafe_damage hsafe d hd) hinv)
    | (rename_i h hh
       exact healthInv_applyHealthHeal ctx h (metaHealthSafe_healing hsafe h hh) hinv)

theorem dispInv_applyConsequence (now : Nat) (a : ActionEvent)
    (ctx : PlayerContext) (c : String) (hinv : dispInv ctx) :
    dispInv (applyConsequence now a ctx c) := by
  unfold applyConsequence
  repeat' split
  all_goals
    first
    | exact hinv
    | exact dispInv_congr (addReputation_npcStates _ _) hinv
    | exact dispInv_congr (applyHealthDamage_frame _ _).2.1 hinv
    | exact dispInv_congr (applyHealthHeal_frame _ _).2.1 hinv
    | exact dispInv_congr (gainItem_frame _ _).2.1 hinv
    | exact dispInv_congr (loseItem_frame _ _).2.1 hinv
    | exact dispInv_updateNPCRelationship _ _ _ _ _ _ hinv

theorem factsInv_applyConsequence (now : Nat) (a : ActionEvent)
    (ctx : PlayerContext) (c : String) (hinv : factsInv ctx) :
    factsInv (applyConsequence now a ctx c) := by
  unfold applyConsequence
  repeat' split
  all_goals
    first
    | exact hinv
    | exact factsInv_congr (addReputation_npcStates _ _) hinv
    | exact factsInv_congr (applyHealthDamage_frame _ _).2.1 hinv
    | exact factsInv_congr (applyHealthHeal_frame _ _).2.1 hinv
    | exact factsInv_congr (gainItem_frame _ _).2.1 hinv
    | exact factsInv_congr (loseItem_frame _ _).2.1 hinv
    | exact factsInv_updateNPCRelationship _ _ _ _ _ _ hinv

theorem healthInv_foldlConseq (now : Nat) (a : ActionEvent)
    (hsafe : metaHealthSafe a.metadata = true) :
    ∀ (cs : List String) (ctx : PlayerContext), healthInv ctx →
      healthInv (cs.foldl (applyConsequence now a) ctx)
  | [], _, hinv => hinv
  | c :: cs, ctx, hinv => by
      rw [List.foldl_cons]
      exact healthInv_foldlConseq now a hsafe cs _
        (healthInv_applyConsequence now a ctx c hsafe hinv)

theorem dispInv_foldlConseq (now : Nat) (a : ActionEvent) :
    ∀ (cs : List String) (ctx : PlayerContext), dispInv ctx →
      dispInv (cs.foldl (applyConsequence now a) ctx)
  | [], _, hinv => hinv
  | c :: cs, ctx, hinv => by
      rw [List.foldl_cons]
      exact dispInv_foldlConseq now a cs _
        (dispInv_applyConsequence now a ctx c hinv)

theorem factsInv_foldlConseq (now : Nat) (a : ActionEvent) :
    ∀ (cs : List String) (ctx : PlayerContext), factsInv ctx →
      factsInv (cs.foldl (applyConsequence now a) ctx)
  | [], _, hinv => hinv
  | c :: cs, ctx, hinv => by
      rw [List.foldl_cons]
      exact factsInv_foldlConseq now a cs _
        (factsInv_applyConsequence now a ctx c hinv)

theorem healthInv_processActionConsequences (now : Nat) (ctx : PlayerContext)
    (a : ActionEvent) (hsafe : metaHealthSafe a.metadata = true)
    (hinv : healthInv ctx) :
    healthInv (processActionConsequences now ctx a) :=
  healthInv_congr rfl (healthInv_foldlConseq now a hsafe a.consequences ctx hinv)

theorem dispInv_processActionConsequences (now : Nat) (ctx : PlayerContext)
    (a : ActionEvent) (hinv : dispInv ctx) :
    dispInv (processActionConsequences now ctx a) :=
  dispInv_congr rfl (dispInv_foldlConseq now a a.consequences ctx hinv)

theorem factsInv_processActionConsequences (now : Nat) (ctx : PlayerContext)
    (a : ActionEvent) (hinv : factsInv ctx) :
    factsInv (processActionConsequences now ctx a) :=
  factsInv_congr rfl (factsInv_foldlConseq now a a.consequences ctx hinv)

theorem healthInv_trimActions (ctx : PlayerContext) (m : Nat)
    (hinv : healthInv ctx) : healthInv (trimActions ctx m) :=
  healthInv_congr (congrArg CharacterState.health (trimActions_character ctx m)) hinv

theorem dispInv_trimActions (ctx : PlayerContext) (m : Nat)
    (hinv : dispInv ctx) : dispInv (trimActions ctx m) :=
  dispInv_congr (trimActions_npcStates ctx m) hinv

theorem factsInv_trimActions (ctx : PlayerContext) (m : Nat)
    (hinv : factsInv ctx) : factsInv (trimActions ctx m) :=
  factsInv_congr (trimActions_npcStates ctx m) hinv

theorem healthInv_processContextEvent (m now : Nat) (ctx : PlayerContext)
    (ev : ContextEvent) (hsafe : metaHealthSafe ev.event.metadata = true)
    (hinv : healthInv ctx) : healthInv (processContextEvent m now ctx ev) := by
  show healthInv (updateSessionStats (processActionConsequences now
    (trimActions { ctx with actions := ctx.actions ++ [ev.event] } m)
    ev.event) ev.event)
  exact healthInv_congr rfl
    (healthInv_processActionConsequences now _ ev.event hsafe
      (healthInv_trimActions _ m hinv))

theorem dispInv_processContextEvent (m now : Nat) (ctx : PlayerContext)
    (ev : ContextEvent) (hinv : dispInv ctx) :
    dispInv (processContextEvent m now ctx ev) := by
  show dispInv (updateSessionStats (processActionConsequences now
    (trimActions { ctx with actions := ctx.actions ++ [ev.event] } m)
    ev.event) ev.event)
  exact dispInv_congr rfl
    (dispInv_processActionConsequences now _ ev.event
      (dispInv_trimActions _ m hinv))

theorem factsInv_processContextEvent (m now : Nat) (ctx : PlayerContext)
    (ev : ContextEvent) (hinv : factsInv ctx) :
    factsInv (processContextEvent m now ctx ev) := by
  show factsInv (updateSessionStats (processActionConsequences now
    (trimActions { ctx with actions := ctx.actions ++ [ev.event] } m)
    ev.event) ev.event)
  exact factsInv_congr rfl
    (factsInv_processActionConsequences now _ ev.event
      (factsInv_trimActions _ m hinv))

/-- The reputation written back by `processContextEvent` is the final clamp
of `processActionConsequences`, hence always in range. -/
theorem processContextEvent_reputation_bounds (m now : Nat)
    (ctx : PlayerContext) (ev : ContextEvent) :
    -100 ≤ (processContextEvent m now ctx ev).character.reputation ∧
    (processContextEvent m now ctx ev).character.reputation ≤ 100 :=
  clamp100_bounds _

theorem healthInv_updateCharacterHealth (ctx : PlayerContext) (c : Int)
    (now : Nat) (hinv : healthInv ctx) :
    healthInv (updateCharacterHealth ctx c now) := by
  obtain ⟨h1, h2⟩ := hinv
  constructor
  · show (0 : Int) ≤
      (if ctx.character.health.current + c > ctx.character.health.max
       then ctx.character.health.max
       else if ctx.character.health.current + c < 0 then 0
       else ctx.character.health.current + c)
    split_ifs <;> omega
  · show (if ctx.character.health.current + c > ctx.character.health.max
       then ctx.character.health.max
       else if ctx.character.health.current + c < 0 then 0
       else ctx.character.health.current + c) ≤ ctx.character.health.max
    split_ifs <;> omega

/-- Event-pipeline metadata guard lifted to one engine operation: direct
mutators carry no metadata, a queued event must carry health-safe metadata. -/
def opHealthSafe : EngineOp → Bool
  | EngineOp.procEvent ev _ => metaHealthSafe ev.event.metadata
  | _ => true

theorem repDispInv_applyOp (ctx : PlayerContext) (op : EngineOp)
    (hinv : repDispInv ctx) : repDispInv (applyOp ctx op) := by
  obtain ⟨hrep, hdisp⟩ := hinv
  cases op with
  | updateRep c now =>
      exact ⟨clamp100_bounds _, dispInv_congr (updateReputation_npcStates ctx c now) hdisp⟩
  | updateHealth c now =>
      refine ⟨?_, dispInv_congr (updateCharacterHealth_npcStates ctx c now) hdisp⟩
      rw [show (applyOp ctx (EngineOp.updateHealth c now)).character.reputation
        = ctx.character.reputation from updateCharacterHealth_reputation ctx c now]
      exact hrep
  | updateLoc loc now =>
      refine ⟨?_, dispInv_congr (updateLocation_npcStates ctx loc now) hdisp⟩
      rw [show (applyOp ctx (EngineOp.updateLoc loc now)).character.reputation
        = ctx.character.reputation
        from congrArg CharacterState.reputation (updateLocation_character ctx loc now)]
      exact hrep
  | updateNPC npcID npcName dc facts now =>
      exact ⟨hrep, dispInv_updateNPCRelationship ctx npcID npcName dc facts now hdisp⟩
  | procEvent ev now =>
      show repDispInv (if ev.sessionID = ctx.sessionID then _ else ctx)
      split
      · exact ⟨processContextEvent_reputation_bounds _ now ctx ev,
          dispInv_processContextEvent _ now ctx ev hdisp⟩
      · exact ⟨hrep, hdisp⟩

theorem healthInv_applyOp (ctx : PlayerContext) (op : EngineOp)
    (hsafe : opHealthSafe op = true) (hinv : healthInv ctx) :
    healthInv (applyOp ctx op) := by
  cases op with
  | updateRep c now =>
      exact healthInv_congr (updateReputation_health ctx c now) hinv
  | updateHealth c now =>
      exact healthInv_updateCharacterHealth ctx c now hinv
  | updateLoc loc now =>
      exact healthInv_congr
        (congrArg CharacterState.health (updateLocation_character ctx loc now)) hinv
  | updateNPC npcID npcName dc facts now =>
      exact healthInv_congr (updateNPCRelationship_health ctx npcID npcName dc facts now) hinv
  | procEvent ev now =>
      show healthInv (if ev.sessionID = ctx.sessionID then _ else ctx)
      split
      · exact healthInv_processContextEvent _ now ctx ev hsafe hinv
      · exact hinv

theorem factsInv_applyOp (ctx : PlayerContext) (op : EngineOp)
    (hinv : factsInv ctx) : factsInv (applyOp ctx op) := by
  cases op with
  | updateRep c now =>
      exact factsInv_congr (updateReputation_npcStates ctx c now) hinv
  | updateHealth c now =>
      exact factsInv_congr (updateCharacterHealth_npcStates ctx c now) hinv
  | updateLoc loc now =>
      exact factsInv_congr (updateLocation_npcStates ctx loc now) hinv
  | updateNPC npcID npcName dc facts now =>
      exact factsInv_updateNPCRelationship ctx npcID npcName dc facts now hinv
  | procEvent ev now =>
      show factsInv (if ev.sessionID = ctx.sessionID then _ else ctx)
      split
      · exact factsInv_processContextEvent _ now ctx ev hinv
      · exact hinv

theorem repDispInv_applyOps :
    ∀ (ops : List EngineOp) (ctx : PlayerContext), repDispInv ctx →
      repDispInv (applyOps ctx ops)
  | [], _, hinv => hinv
  | op :: ops, ctx, hinv => by
      show repDispInv (applyOps (applyOp ctx op) ops)
      exact repDispInv_applyOps ops _ (repDispInv_applyOp ctx op hinv)

theorem healthInv_applyOps :
    ∀ (ops : List EngineOp) (ctx : PlayerContext),
      (∀ op ∈ ops, opHealthSafe op = true) → healthInv ctx →
      healthInv (applyOps ctx ops)
  | [], _, _, hinv => hinv
  | op :: ops, ctx, hsafe, hinv => by
      show healthInv (applyOps (applyOp ctx op) ops)
      exact healthInv_applyOps ops _
        (fun o ho => hsafe o (List.mem_cons_of_mem op ho))
        (healthInv_applyOp ctx op (hsafe op (List.mem_cons_self op ops)) hinv)

theorem factsInv_applyOps :
    ∀ (ops : List EngineOp) (ctx : PlayerContext), factsInv ctx →
      factsInv (applyOps ctx ops)
  | [], _, hinv => hinv
  | op :: ops, ctx, hinv => by
      show factsInv (applyOps (applyOp ctx op) ops)
      exact factsInv_applyOps ops _ (factsInv_applyOp ctx op hinv)

/-! ## Location-history invariant -/

/-- Every visit in the list has been closed (has an exit time). -/
def allClosed (l : List LocationVisit) : Prop := ∀ v ∈ l, v.exitTime ≠ none

/-- Shape of a reachable location history: either empty (no move recorded
yet) or all-but-last closed with the last entry open at the current
location. -/
def histInv (ctx : PlayerContext) : Prop :=
  ctx.location.locationHistory = [] ∨
  ∃ pre v, ctx.location.locationHistory = pre ++ [v] ∧ allClosed pre ∧
    v.exitTime = none ∧ v.location = ctx.location.current

/-- Number of open (no exit time) entries in the session's history. -/
def openVisits (ctx : PlayerContext) : Nat :=
  (ctx.location.locationHistory.filter (fun v => v.exitTime.isNone)).length

theorem histInv_congr {ctx2 ctx : PlayerContext}
    (h : ctx2.location = ctx.location) (hinv : histInv ctx) : histInv ctx2 := by
  unfold histInv at *
  rw [h]
  exact hinv

theorem closeLastVisit_concat (pre : List LocationVisit) (v : LocationVisit)
    (now : Nat) (hv : v.exitTime = none) :
    closeLastVisit (pre ++ [v]) now
      = pre ++ [{ v with exitTime := some now, duration := now - v.entryTime }] := by
  unfold closeLastVisit
  rw [List.getLast?_concat]
  show (if v.exitTime = none then
      (pre ++ [v]).dropLast ++
        [{ v with exitTime := some now, duration := now - v.entryTime }]
    else pre ++ [v]) = _
  rw [if_pos hv, List.dropLast_concat]

theorem histInv_updateLocation (ctx : PlayerContext) (newLocation : String)
    (now : Nat) (hinv : histInv ctx) :
    histInv (updateLocation ctx newLocation now) := by
  simp only [updateLocation]
  by_cases hne : ctx.location.current ≠ newLocation
  · rw [if_pos hne]
    refine Or.inr ⟨closeLastVisit ctx.location.locationHistory now,
      { location := newLocation, entryTime := now, exitTime := none,
        duration := 0 }, rfl, ?_, rfl, rfl⟩
    rcases hinv with h | ⟨pre, v, hsplit, hpre, hopen, _⟩
    · rw [h]
      intro w hw
      simp [closeLastVisit] at hw
    · rw [hsplit, closeLastVisit_concat pre v now hopen]
      intro w hw
      rcases List.mem_append.mp hw with h1 | h1
      · exact hpre w h1
      · rcases List.mem_singleton.mp h1 with rfl
        simp
  · rw [if_neg hne]
    exact hinv

theorem histInv_applyOp (ctx : PlayerContext) (op : EngineOp)
    (hinv : histInv ctx) : histInv (applyOp ctx op) := by
  cases op with
  | updateRep c now => exact histInv_congr (updateReputation_location ctx c now) hinv
  | updateHealth c now =>
      exact histInv_congr (updateCharacterHealth_location ctx c now) hinv
  | updateLoc loc now => exact histInv_updateLocation ctx loc now hinv
  | updateNPC npcID npcName dc facts now =>
      exact histInv_congr (updateNPCRelationship_location ctx npcID npcName dc facts now) hinv
  | procEvent ev now =>
      show histInv (if ev.sessionID = ctx.sessionID then _ else ctx)
      split
      · exact histInv_congr (processContextEvent_location _ now ctx ev) hinv
      · exact hinv

theorem histInv_applyOps :
    ∀ (ops : List EngineOp) (ctx : PlayerContext), histInv ctx →
      histInv (applyOps ctx ops)
  | [], _, hinv => hinv
  | op :: ops, ctx, hinv => by
      show histInv (applyOps (applyOp ctx op) ops)
      exact histInv_applyOps ops _ (histInv_applyOp ctx op hinv)

theorem histInv_openVisits (ctx : PlayerContext) (hinv : histInv ctx) :
    openVisits ctx ≤ 1 ∧
    (ctx.location.locationHistory ≠ [] → openVisits ctx = 1) ∧
    (∀ v ∈ ctx.location.locationHistory, v.exitTime = none →
      v.location = ctx.location.current) := by
  rcases hinv with h | ⟨pre, v, hsplit, hpre, hopen, hloc⟩
  · refine ⟨?_, ?_, ?_⟩
    · unfold openVisits
      rw [h]
      simp
    · intro hne
      exact absurd h hne
    · intro w hw
      rw [h] at hw
      simp at hw
  · have h1 : pre.filter (fun w => w.exitTime.isNone) = [] :=
      List.filter_eq_nil_iff.mpr (fun w hw => by
        simp only [Bool.not_eq_true, Option.isNone_eq_false_iff]
        exact Option.isSome_iff_ne_none.mpr (hpre w hw))
    have hfilter : openVisits ctx = 1 := by
      unfold openVisits
      rw [hsplit, List.filter_append, h1]
      simp [hopen]
    refine ⟨by omega, fun _ => hfilter, ?_⟩
    intro w hw hwopen
    rw [hsplit] at hw
    rcases List.mem_append.mp hw with h2 | h2
    · exact absurd hwopen (hpre w h2)
    · rcases List.mem_singleton.mp h2 with rfl
      exact hloc

/-! ## Pipeline log lemmas -/

theorem lastN_of_le {l : List α} {n : Nat} (h : l.length ≤ n) : lastN n l = l := by
  unfold lastN
  rw [Nat.sub_eq_zero_of_le h, List.drop_zero]

theorem processEvents_actions (m now : Nat) :
    ∀ (evs : List ContextEvent) (ctx : PlayerContext),
      (∀ ev ∈ evs, ev.sessionID = ctx.sessionID) →
      ctx.actions.length ≤ m →
      (processEvents m now ctx evs).actions
        = lastN m (ctx.actions ++ evs.map ContextEvent.event)
  | [], ctx, _, hlen => by
      show ctx.actions = lastN m (ctx.actions ++ [])
      rw [List.append_nil, lastN_of_le hlen]
  | ev :: evs, ctx, hsid, hlen => by
      show (processEvents m now
        (if ev.sessionID = ctx.sessionID then processContextEvent m now ctx ev
         else ctx) evs).actions = _
      rw [if_pos (hsid ev (List.mem_cons_self ev evs))]
      have hsid2 : ∀ e ∈ evs, e.sessionID = (processContextEvent m now ctx ev).sessionID := by
        rw [processContextEvent_sessionID]
        exact fun e he => hsid e (List.mem_cons_of_mem ev he)
      have hlen2 : (processContextEvent m now ctx ev).actions.length ≤ m := by
        rw [processContextEvent_actions, length_lastN]
        omega
      rw [processEvents_actions m now evs _ hsid2 hlen2,
        processContextEvent_actions, lastN_append_lastN, List.append_assoc]
      rfl

theorem mem_actions_processEvents (m now : Nat) :
    ∀ (evs : List ContextEvent) (ctx : PlayerContext) (a : ActionEvent),
      a ∈ (processEvents m now ctx evs).actions →
      a ∈ ctx.actions ∨ a ∈ evs.map ContextEvent.event
  | [], _, _, h => Or.inl h
  | ev :: evs, ctx, a, h => by
      have h0 := mem_actions_processEvents m now evs
        (if ev.sessionID = ctx.sessionID then processContextEvent m now ctx ev
         else ctx) a h
      rcases h0 with h1 | h1
      · by_cases hs : ev.sessionID = ctx.sessionID
        · rw [if_pos hs, processContextEvent_actions] at h1
          rcases List.mem_append.mp (mem_lastN h1) with h2 | h2
          · exact Or.inl h2
          · rcases List.mem_singleton.mp h2 with rfl
            exact Or.inr (List.mem_cons_self _ _)
        · rw [if_neg hs] at h1
          exact Or.inl h1
      · exact Or.inr (List.mem_cons_of_mem _ h1)

/-! ## Known-facts idempotence -/

theorem updateNPCRelationship_knownFacts_of_subset (ctx : PlayerContext)
    (npcID npcName : String) (dc : Int) (facts : List String) (now : Nat)
    (r : NPCRelationship) (hfound : lookupNPC ctx.npcStates npcID = some r)
    (hsub : ∀ f ∈ facts, f ∈ r.knownFacts) :
    ∃ r2, lookupNPC (updateNPCRelationship ctx npcID npcName dc facts now).npcStates
        npcID = some r2 ∧ r2.knownFacts = r.knownFacts := by
  unfold updateNPCRelationship
  simp only [hfound]
  refine ⟨_, lookupNPC_insertNPC _ _ _, ?_⟩
  show addFacts r.knownFacts facts = r.knownFacts
  exact addFacts_of_subset _ _ hsub

/-! ## Prompt-bounding lemmas -/

theorem getActionSummary_length_le (actions : List ActionEvent) (count : Nat)
    (hc : 1 ≤ count) : (getActionSummary actions count).length ≤ count := by
  unfold getActionSummary
  split_ifs with h
  · simpa
  · rw [List.length_map, List.length_drop]
    omega

theorem getRecentActions_length_le (ctx : PlayerContext) (count : Nat) :
    (getRecentActions ctx count).length ≤ count := by
  unfold getRecentActions
  split_ifs with h
  · rw [List.length_drop]
    omega
  · omega

theorem formatRecentActions_length_le (now : Nat) (actions : List ActionEvent)
    (count : Nat) (hc : 1 ≤ count) (hlen : actions.length ≤ count) :
    (formatRecentActions now actions).length ≤ count := by
  unfold formatRecentActions
  split_ifs with h
  · simpa
  · rw [List.length_map]
    exact hlen

/-! ## Concrete fixtures used by witnesses and counterexamples -/

/-- The session built by `CreateSession("p1", "Aragorn")` at tick 0. -/
def baseCtx : PlayerContext := createSessionCtx "p1" "Aragorn" "session-1" 0

/-- A recorded action whose `health_heal` consequence carries a negative
healing value in its metadata bag. -/
def badHealEvent : ActionEvent :=
  { id := "a-heal", timestamp := 1, type := "heal", command := "/heal",
    target := "", location := "starting_village", outcome := "success",
    consequences := ["health_heal"],
    metadata := { emptyMetadata with healing := some (-21) } }

/-- A recorded action whose `reputation_decrease` consequence carries an
adversarially large metadata delta. -/
def repEvent : ActionEvent :=
  { id := "a-rep", timestamp := 3, type := "talk", command := "/insult",
    target := "guard", location := "starting_village", outcome := "failure",
    consequences := ["reputation_decrease"],
    metadata := { emptyMetadata with reputationChange := some (-100000) } }

/-- A recorded action dealing 5 damage through its metadata bag. -/
def dmgEvent : ActionEvent :=
  { id := "a-dmg", timestamp := 3, type := "combat", command := "/attack goblin",
    target := "goblin", location := "starting_village", outcome := "success",
    consequences := ["health_damage"],
    metadata := { emptyMetadata with damage := some 5 } }

def c1WitnessOps : List EngineOp :=
  [EngineOp.updateRep 1000 1,
   EngineOp.updateNPC "npc1" "Bob" 150 ["a"] 2,
   EngineOp.procEvent { sessionID := "session-1", event := repEvent, timestamp := 3 } 3,
   EngineOp.updateRep (-1000) 4]

def c2Event1 : ContextEvent :=
  { sessionID := "session-1",
    event := mkRecordedAction "a1" "/look" "look" "" "starting_village" "success" [] 1,
    timestamp := 1 }

def c2Event2 : ContextEvent :=
  { sessionID := "session-1",
    event := mkRecordedAction "a2" "/move north" "move" "" "starting_village" "success" [] 2,
    timestamp := 2 }

def c3WitnessOps : List EngineOp :=
  [EngineOp.updateHealth (-3) 1,
   EngineOp.updateHealth 50 2,
   EngineOp.procEvent { sessionID := "session-1", event := dmgEvent, timestamp := 3 } 3]

def fillerEvent : ContextEvent :=
  { sessionID := "session-1",
    event := mkRecordedAction "filler" "/wait" "wait" "" "starting_village" "queued" [] 0,
    timestamp := 0 }

/-- A queue at its default capacity of 1000, completely full. -/
def fullQueue : EventQueue :=
  { capacity := defaultQueueCapacity, buffer := List.replicate 1000 fillerEvent }

def c6WitnessOps : List EngineOp := [EngineOp.updateLoc "forest" 3]

def c6WitnessCtx : PlayerContext := applyOps baseCtx c6WitnessOps

/-- `baseCtx` after a first NPC update creating Bob with fact "a". -/
def npcCtx8 : PlayerContext :=
  updateNPCRelationship baseCtx "npc1" "Bob" 5 ["a"] 1

/-- Bob's relationship record inside `npcCtx8`. -/
def bobRel : NPCRelationship :=
  { npcID := "npc1", name := "Bob", disposition := 5, firstMet := 1,
    lastInteraction := 1, interactionCount := 1, knownFacts := ["a"],
    mood := "neutral", location := "starting_village", notes := [] }

/-! ## Claim theorems -/

/-- C1: for every session whose character reputation and NPC dispositions
start within [-100,100], after any sequence of engine operations — direct
reputation updates, NPC relationship updates, or consequence-tag processing
of recorded actions, including adversarial single large deltas and
metadata-supplied values — the reputation and every NPC disposition still
lie within [-100,100]. -/
theorem c1_reputation_disposition_clamped (ctx : PlayerContext)
    (ops : List EngineOp) (hinv : repDispInv ctx) :
    repDispInv (applyOps ctx ops) :=
  repDispInv_applyOps ops ctx hinv

theorem c1_witness :
    repDispInv baseCtx ∧ repDispInv (applyOps baseCtx c1WitnessOps) :=
  ⟨by unfold repDispInv dispInv; decide,
   c1_reputation_disposition_clamped baseCtx c1WitnessOps
     (by unfold repDispInv dispInv; decide)⟩

/-- C2: starting from an empty action log, after the event pipeline
processes N action events addressed to the session, the log is exactly the
last min(N, 50) of those events in processing order (oldest evicted first),
50 being the default bound. -/
theorem c2_action_log_bounded (ctx : PlayerContext) (evs : List ContextEvent)
    (now : Nat) (hempty : ctx.actions = [])
    (hsid : ∀ ev ∈ evs, ev.sessionID = ctx.sessionID) :
    (processEvents defaultMaxActions now ctx evs).actions
      = lastN defaultMaxActions (evs.map ContextEvent.event) ∧
    (processEvents defaultMaxActions now ctx evs).actions.length
      = min evs.length defaultMaxActions := by
  have h := processEvents_actions defaultMaxActions now evs ctx hsid
    (by rw [hempty]; simp)
  rw [hempty] at h
  simp only [List.nil_append] at h
  refine ⟨h, ?_⟩
  rw [h, length_lastN, List.length_map]

theorem c2_witness :
    (processEvents defaultMaxActions 3 baseCtx [c2Event1, c2Event2]).actions
      = lastN defaultMaxActions ([c2Event1, c2Event2].map ContextEvent.event) ∧
    (processEvents defaultMaxActions 3 baseCtx [c2Event1, c2Event2]).actions.length
      = min 2 defaultMaxActions :=
  c2_action_log_bounded baseCtx [c2Event1, c2Event2] 3 rfl (by decide)

/-- C3 counterexample: from a session with health 20/20 (so 0 ≤ current ≤
max), processing a single recorded action whose `health_heal` consequence
carries healing metadata -21 drives current health to -1, violating the
claimed invariant for arbitrary integer metadata. -/
theorem c3_counterexample :
    healthInv baseCtx ∧
    (processContextEvent defaultMaxActions 1 baseCtx
      { sessionID := "session-1", event := badHealEvent,
        timestamp := 1 }).character.health.current = -1 ∧
    ¬ healthInv (processContextEvent defaultMaxActions 1 baseCtx
      { sessionID := "session-1", event := badHealEvent, timestamp := 1 }) :=
  ⟨by unfold healthInv; decide, by decide, by unfold healthInv; decide⟩

/-- C3 (amended): for every session with 0 ≤ current ≤ max, after any
sequence of UpdateCharacterHealth calls (arbitrary integer deltas) and
consequence applications whose damage/healing metadata values are
nonnegative when present, the health still satisfies 0 ≤ current ≤ max. -/
theorem c3_health_clamped (ctx : PlayerContext) (ops : List EngineOp)
    (hsafe : ∀ op ∈ ops, opHealthSafe op = true) (hinv : healthInv ctx) :
    healthInv (applyOps ctx ops) :=
  healthInv_applyOps ops ctx hsafe hinv

theorem c3_witness :
    healthInv baseCtx ∧ healthInv (applyOps baseCtx c3WitnessOps) :=
  ⟨by unfold healthInv; decide,
   c3_health_clamped baseCtx c3WitnessOps (by decide)
     (by unfold healthInv; decide)⟩

/-- C4: a RecordAction submission enqueues the built event and returns no
error exactly when the bounded queue has spare capacity; against a full
queue (default capacity 1000) the call synchronously returns the capacity
error, and the dropped action — not being enqueued — never appears in the
session's eventual action log when the queue is drained by the worker. -/
theorem c4_recordAction_capacity (q : EventQueue)
    (actionID sessionID command actionType target location outcome : String)
    (consequences : List String) (now tick : Nat) (ctx : PlayerContext) :
    (q.buffer.length < q.capacity →
      recordAction q actionID sessionID command actionType target location
          outcome consequences now
        = Except.ok { q with buffer := q.buffer ++
            [{ sessionID := sessionID,
               event := mkRecordedAction actionID command actionType target
                 location outcome consequences now,
               timestamp := now }] }) ∧
    (q.capacity ≤ q.buffer.length →
      recordAction q actionID sessionID command actionType target location
          outcome consequences now = Except.error "event queue full" ∧
      (mkRecordedAction actionID command actionType target location outcome
          consequences now ∉ ctx.actions →
       mkRecordedAction actionID command actionType target location outcome
          consequences now ∉ q.buffer.map ContextEvent.event →
       mkRecordedAction actionID command actionType target location outcome
          consequences now ∉
         (processEvents defaultMaxActions tick ctx q.buffer).actions)) := by
  constructor
  · intro h
    unfold recordAction
    rw [if_pos h]
  · intro h
    refine ⟨?_, ?_⟩
    · unfold recordAction
      rw [if_neg (by omega)]
    · intro h1 h2 hmem
      rcases mem_actions_processEvents defaultMaxActions tick q.buffer ctx _ hmem
        with h3 | h3
      · exact h1 h3
      · exact h2 h3

theorem c4_witness :
    fullQueue.capacity ≤ fullQueue.buffer.length ∧
    recordAction fullQueue "a1001" "session-1" "/shout" "talk" "" "starting_village"
      "queued" [] 9 = Except.error "event queue full" ∧
    mkRecordedAction "a1001" "/shout" "talk" "" "starting_village" "queued" [] 9 ∉
      (processEvents defaultMaxActions 10 baseCtx fullQueue.buffer).actions := by
  have hfull : fullQueue.capacity ≤ fullQueue.buffer.length := by
    show defaultQueueCapacity ≤ (List.replicate 1000 fillerEvent).length
    rw [List.length_replicate]
    decide
  have h := (c4_recordAction_capacity fullQueue "a1001" "session-1" "/shout" "talk"
    "" "starting_village" "queued" [] 9 10 baseCtx).2 hfull
  refine ⟨hfull, h.1, h.2 (by decide) ?_⟩
  show mkRecordedAction "a1001" "/shout" "talk" "" "starting_village" "queued" [] 9 ∉
    (List.replicate 1000 fillerEvent).map ContextEvent.event
  rw [List.map_replicate]
  intro hmem
  exact absurd (List.mem_replicate.mp hmem).2 (by decide)

/-- C5: GetContext returns a session and never a non-nil error: the cached
entry if present, else the session loaded from the store, and on a NotFound
load it synthesizes the fresh skeleton, caches it and returns it — absence
of the id never propagates to the caller as an error. -/
theorem c5_getContext_total (cache : Option PlayerContext) (load : LoadResult)
    (sessionID : String) (now : Nat) :
    ∃ ctx cache2,
      getContext cache load sessionID now = Except.ok (ctx, cache2) ∧
      (∀ c, cache = some c → ctx = c) ∧
      (cache = none → ∀ c, load = LoadResult.found c → ctx = c) ∧
      (cache = none → load = LoadResult.notFound →
        ctx = createNewContext sessionID now ∧
        cache2 = some (createNewContext sessionID now)) := by
  cases cache with
  | some c =>
      refine ⟨c, some c, rfl, ?_, ?_, ?_⟩
      · intro c2 h
        cases h
        rfl
      · intro h
        cases h
      · intro h
        cases h
  | none =>
      cases load with
      | found c =>
          refine ⟨c, some c, rfl, ?_, ?_, ?_⟩
          · intro c2 h
            cases h
          · intro _ c2 h
            cases h
            rfl
          · intro _ h
            cases h
      | notFound =>
          refine ⟨createNewContext sessionID now,
            some (createNewContext sessionID now), rfl, ?_, ?_, ?_⟩
          · intro c2 h
            cases h
          · intro _ c2 h
            cases h
          · intro _ _
            exact ⟨rfl, rfl⟩
      | ioError m =>
          refine ⟨createNewContext sessionID now,
            some (createNewContext sessionID now), rfl, ?_, ?_, ?_⟩
          · intro c2 h
            cases h
          · intro _ c2 h
            cases h
          · intro _ h
            cases h

theorem c5_witness :
    getContext none LoadResult.notFound "session-7" 5
      = Except.ok (createNewContext "session-7" 5,
          some (createNewContext "session-7" 5)) := by
  obtain ⟨ctx, cache2, h1, -, -, h4⟩ :=
    c5_getContext_total none LoadResult.notFound "session-7" 5
  obtain ⟨h5, h6⟩ := h4 rfl rfl
  rw [h5, h6] at h1
  exact h1

/-- C6 counterexample: the state produced by CreateSession is reachable and
its location history is empty, so it has zero open entries — not exactly
one as claimed. -/
theorem c6_counterexample :
    Reachable baseCtx ∧ baseCtx.location.locationHistory = [] ∧
    openVisits baseCtx ≠ 1 :=
  ⟨Or.inl ⟨"p1", "Aragorn", "session-1", 0, [], rfl⟩, rfl,
   by unfold openVisits; decide⟩

/-- C6 (amended): every reachable session state has at most one open entry
in its location history; the history starts empty (zero open entries), and
once nonempty — after the first location change — it has exactly one open
entry, and every open entry records the session's current location. -/
theorem c6_one_open_entry (ctx : PlayerContext) (h : Reachable ctx) :
    openVisits ctx ≤ 1 ∧
    (ctx.location.locationHistory ≠ [] → openVisits ctx = 1) ∧
    (∀ v ∈ ctx.location.locationHistory, v.exitTime = none →
      v.location = ctx.location.current) := by
  have hinv : histInv ctx := by
    rcases h with ⟨p, n, sid, t, ops, rfl⟩ | ⟨sid, t, ops, rfl⟩
    · exact histInv_applyOps ops _ (Or.inl rfl)
    · exact histInv_applyOps ops _ (Or.inl rfl)
  exact histInv_openVisits ctx hinv

theorem c6_witness :
    openVisits c6WitnessCtx ≤ 1 ∧ openVisits c6WitnessCtx = 1 :=
  ⟨(c6_one_open_entry c6WitnessCtx
      (Or.inl ⟨"p1", "Aragorn", "session-1", 0, c6WitnessOps, rfl⟩)).1,
   (c6_one_open_entry c6WitnessCtx
      (Or.inl ⟨"p1", "Aragorn", "session-1", 0, c6WitnessOps, rfl⟩)).2.1
     (by decide)⟩

/-- C7: with a failing durable save, CreateSession returns an error and no
session id — but the session it built was cached before the save attempt
and stays cached afterwards, so the engine still reports it as an active
(live) session: the code violates the "not handed out as live" requirement. -/
theorem c7_createSession_saveFailure :
    (createSession "p1" "Aragorn" "session-1" 0 false).1
      = Except.error "failed to save new context" ∧
    (createSession "p1" "Aragorn" "session-1" 0 false).2
      = some (createSessionCtx "p1" "Aragorn" "session-1" 0) ∧
    isSessionActive (createSession "p1" "Aragorn" "session-1" 0 false).2 = true :=
  ⟨rfl, rfl, rfl⟩

/-- C8: repeating an NPC relationship update whose facts are all already in
the NPC's known-facts list leaves that list unchanged (idempotence), and
after any sequence of engine operations every NPC's known-facts list is
duplicate-free (set behavior). -/
theorem c8_known_facts_set :
    (∀ (ctx : PlayerContext) (npcID npcName : String) (dc : Int)
        (facts : List String) (now : Nat) (r : NPCRelationship),
      lookupNPC ctx.npcStates npcID = some r →
      (∀ f ∈ facts, f ∈ r.knownFacts) →
      ∃ r2, lookupNPC (updateNPCRelationship ctx npcID npcName dc facts
          now).npcStates npcID = some r2 ∧ r2.knownFacts = r.knownFacts) ∧
    (∀ (ctx : PlayerContext) (ops : List EngineOp), factsInv ctx →
      factsInv (applyOps ctx ops)) :=
  ⟨updateNPCRelationship_knownFacts_of_subset,
   fun ctx ops h => factsInv_applyOps ops ctx h⟩

theorem c8_witness :
    (∃ r2, lookupNPC (updateNPCRelationship npcCtx8 "npc1" "Bob" 3 ["a"]
        2).npcStates "npc1" = some r2 ∧ r2.knownFacts = bobRel.knownFacts) ∧
    factsInv (applyOps npcCtx8 [EngineOp.updateNPC "npc1" "Bob" 2 ["a", "b", "a"] 3]) :=
  ⟨c8_known_facts_set.1 npcCtx8 "npc1" "Bob" 3 ["a"] 2 bobRel (by decide) (by decide),
   c8_known_facts_set.2 npcCtx8 [EngineOp.updateNPC "npc1" "Bob" 2 ["a", "b", "a"] 3]
     (by unfold factsInv; decide)⟩

/-- C9: the recent-actions list of the context summary has at most 5 entries
and the prompt's recent-actions section at most 3 lines, regardless of the
length of the session's action log. -/
theorem c9_recent_actions_bounded (ctx : PlayerContext) (now : Nat) :
    (getContextSummary ctx).recentActions.length ≤ 5 ∧
    (promptRecentActionLines ctx now).length ≤ 3 :=
  ⟨getActionSummary_length_le ctx.actions 5 (by omega),
   formatRecentActions_length_le now _ 3 (by omega)
     (getRecentActions_length_le ctx 3)⟩

/-- C10: the skeleton session synthesized by GetContext for an unknown id
starts at location "unknown" with health 20/20, reputation 0, empty action
log, empty NPC map, empty attribute map and visit count 0, and is what
GetContext caches and returns on a NotFound load — unlike a session made by
CreateSession, which starts at "starting_village" with visit count 1 and
four default attributes of 10. -/
theorem c10_skeleton_vs_created (sessionID playerID playerName : String)
    (now : Nat) :
    (createNewContext sessionID now).location.current = "unknown" ∧
    (createNewContext sessionID now).character.health.current = 20 ∧
    (createNewContext sessionID now).character.health.max = 20 ∧
    (createNewContext sessionID now).character.reputation = 0 ∧
    (createNewContext sessionID now).actions = [] ∧
    (createNewContext sessionID now).npcStates = [] ∧
    (createNewContext sessionID now).character.attributes = [] ∧
    (createNewContext sessionID now).location.visitCount = 0 ∧
    getContext none LoadResult.notFound sessionID now
      = Except.ok (createNewContext sessionID now,
          some (createNewContext sessionID now)) ∧
    (createSessionCtx playerID playerName sessionID now).location.current
      = "starting_village" ∧
    (createSessionCtx playerID playerName sessionID now).location.visitCount = 1 ∧
    (createSessionCtx playerID playerName sessionID now).character.attributes
      = [("strength", 10), ("dexterity", 10), ("intelligence", 10),
         ("charisma", 10)] :=
  ⟨rfl, rfl, rfl, rfl, rfl, rfl, rfl, rfl, rfl, rfl, rfl, rfl⟩
